import Mathlib

/-!
Verification of `oweb.py`, a command-line client for an Open WebUI service.
The Python source is shallowly embedded: each CLI operation becomes a pure
Lean function from an environment (file system, directory trees, network
oracle, configuration) to a `Run`, which records the HTTP requests issued,
the lines printed to standard output, and whether the operation returned
normally or propagated a Python exception.
-/

set_option autoImplicit false

namespace Oweb

/-- JSON values, as produced by `response.json()` and built for request
bodies.  Numbers are modelled as integers (the program never builds or
inspects fractional numbers). Objects keep insertion order, as Python
dicts do. -/
inductive Json where
  | null
  | bool (b : Bool)
  | num (n : Int)
  | str (s : String)
  | arr (elems : List Json)
  | obj (fields : List (String × Json))

/-- The Python exceptions the embedded code can raise. -/
inductive PyError where
  | valueError (msg : String)
  | attributeError (msg : String)
  | typeError (msg : String)
  | fileNotFoundError (path : String)
deriving DecidableEq

/-- Did a piece of embedded code return normally or raise? -/
inductive Outcome where
  | ok
  | exn (e : PyError)
deriving DecidableEq

/-- An HTTP request as issued via the `requests` library: method, URL,
header map, optional JSON body (the `json=` keyword), and multipart
file parts (the `files=` keyword, each part being field name, file
name and file content). -/
structure Request where
  method : String
  url : String
  headers : List (String × String)
  jsonBody : Option Json
  files : List (String × String × String)

/-- An HTTP response: status code, raw body text, and the value
`response.json()` parses from the body (the embedding assumes the body
is parseable JSON whenever the code calls `.json()`). -/
structure Response where
  status : Nat
  text : String
  json : Json

/-- The trace of one embedded operation: the requests it issued in order,
the lines it printed to standard output in order (each `print(x)` is one
line), and whether it returned normally. -/
structure Run where
  requests : List Request
  output : List String
  result : Outcome

/-- A directory tree as traversed by `os.walk`: the plain files directly in
the directory (base names), and the named subdirectories, in traversal
order. -/
inductive Dir where
  | mk (files : List String) (subdirs : List (String × Dir))

/-- The world an operation runs against: the API key and base URL
configuration, the readable files (`fs p = some content` iff `open(p)`
succeeds), the directory trees (`dirs p = some t` iff `os.path.isdir(p)`),
and the network, mapping each request to its response. -/
structure Env where
  key : String
  base : String
  fs : String → Option String
  dirs : String → Option Dir
  net : Request → Response

/-! ## Python semantics helpers -/

/-- Python `str.lower()` (ASCII case folding suffices for the file names and
suffix check in question). -/
def pyLower (s : String) : String :=
  ⟨s.data.map Char.toLower⟩

/-- Python `s.endswith(suf)`. -/
def pyEndsWith (s suf : String) : Bool :=
  suf.data.isSuffixOf s.data

/-- The filter `file.lower().endswith('.md')` from `load_directory`. -/
def isMd (f : String) : Bool :=
  pyEndsWith (pyLower f) ".md"

/-- Python `os.path.join(a, b)` on a POSIX system (with `b` a relative
name, as all names from `os.walk` are). -/
def pathJoin (a b : String) : String :=
  a ++ "/" ++ b

/-- First binding of `k` among a dict's fields. -/
def Json.lookupKey : List (String × Json) → String → Option Json
  | [], _ => none
  | (k, v) :: rest, key => if k = key then some v else Json.lookupKey rest key

/-- Key lookup on a JSON value, `none` if the value is not an object or
lacks the key. -/
def jsonGet (j : Json) (key : String) : Option Json :=
  match j with
  | .obj kvs => Json.lookupKey kvs key
  | _ => none

/-- Python `x.get(k, default)`: returns the stored value (even `None`)
when the key is present, the default when absent, and raises
`AttributeError` when `x` is not a dict. -/
def pyGetD (j : Json) (key : String) (dflt : Json) : Except PyError Json :=
  match j with
  | .obj kvs => .ok ((Json.lookupKey kvs key).getD dflt)
  | _ => .error (.attributeError ("get on non-dict value for key " ++ key))

/-- Python one-argument `x.get(k)`: the default is `None`. -/
def pyGetOne (j : Json) (key : String) : Except PyError Json :=
  pyGetD j key .null

/-- Python iteration `for x in v`: lists yield their elements, dicts their
keys, strings their one-character substrings; other values raise
`TypeError`. -/
def pyIter (j : Json) : Except PyError (List Json) :=
  match j with
  | .arr xs => .ok xs
  | .obj kvs => .ok (kvs.map fun kv => .str kv.1)
  | .str s => .ok (s.data.map fun c => .str (String.singleton c))
  | _ => .error (.typeError "value is not iterable")

/-- The single-quote character, written via its code point to keep the
source free of quote literals. -/
def sq : String :=
  String.singleton (Char.ofNat 39)

mutual

/-- Python `repr` of a JSON-shaped value (inner string escaping is not
modelled; the strings the program prints contain no quotes). -/
def pyRepr : Json → String
  | .null => "None"
  | .bool true => "True"
  | .bool false => "False"
  | .num n => toString n
  | .str s => sq ++ s ++ sq
  | .arr xs => "[" ++ pyReprSeq xs ++ "]"
  | .obj kvs => "\x7b" ++ pyReprFields kvs ++ "\x7d"

/-- Comma-separated `repr`s of a list's elements. -/
def pyReprSeq : List Json → String
  | [] => ""
  | [x] => pyRepr x
  | x :: y :: rest => pyRepr x ++ ", " ++ pyReprSeq (y :: rest)

/-- Comma-separated `repr`s of a dict's entries. -/
def pyReprFields : List (String × Json) → String
  | [] => ""
  | [(k, v)] => sq ++ k ++ sq ++ ": " ++ pyRepr v
  | (k, v) :: e :: rest =>
      sq ++ k ++ sq ++ ": " ++ pyRepr v ++ ", " ++ pyReprFields (e :: rest)

end

/-- Python `str(v)` as used by f-string interpolation: identical to `repr`
except on strings, which are inserted verbatim. -/
def pyStr (j : Json) : String :=
  match j with
  | .str s => s
  | _ => pyRepr j

/-- JSON string escaping for `json.dumps` (the escapes the program's data
can contain). -/
def jsonEscapeChar (c : Char) : String :=
  if c = '\\' then "\\\\"
  else if c = '"' then "\\\""
  else if c = '\n' then "\\n"
  else String.singleton c

/-- A JSON string literal as `json.dumps` renders it. -/
def jsonQuote (s : String) : String :=
  "\"" ++ String.join (s.data.map jsonEscapeChar) ++ "\""

mutual

/-- Python `json.dumps(v, indent=2)` at nesting depth `d` (the value is
rendered starting at the current position; `d` spaces of indentation
prefix nested lines). -/
def jsonDumps (d : Nat) : Json → String
  | .null => "null"
  | .bool true => "true"
  | .bool false => "false"
  | .num n => toString n
  | .str s => jsonQuote s
  | .arr [] => "[]"
  | .arr (x :: xs) =>
      "[\n" ++ jsonDumpsSeq (d + 2) (x :: xs) ++ "\n" ++
        String.mk (List.replicate d ' ') ++ "]"
  | .obj [] => "\x7b\x7d"
  | .obj (e :: es) =>
      "\x7b\n" ++ jsonDumpsFields (d + 2) (e :: es) ++ "\n" ++
        String.mk (List.replicate d ' ') ++ "\x7d"

/-- Array elements of `json.dumps`, one per line at indentation `d`. -/
def jsonDumpsSeq (d : Nat) : List Json → String
  | [] => ""
  | [x] => String.mk (List.replicate d ' ') ++ jsonDumps d x
  | x :: y :: rest =>
      String.mk (List.replicate d ' ') ++ jsonDumps d x ++ ",\n" ++
        jsonDumpsSeq d (y :: rest)

/-- Object entries of `json.dumps`, one per line at indentation `d`. -/
def jsonDumpsFields (d : Nat) : List (String × Json) → String
  | [] => ""
  | [(k, v)] => String.mk (List.replicate d ' ') ++ jsonQuote k ++ ": " ++ jsonDumps d v
  | (k, v) :: e :: rest =>
      String.mk (List.replicate d ' ') ++ jsonQuote k ++ ": " ++ jsonDumps d v ++ ",\n" ++
        jsonDumpsFields d (e :: rest)

end

/-- Python `content.replace("\\n", "\n")` on the character list: every
non-overlapping occurrence of backslash-`n`, scanned left to right, is
replaced by a newline character. -/
def replaceBackslashN : List Char → List Char
  | '\\' :: 'n' :: rest => '\n' :: replaceBackslashN rest
  | c :: rest => c :: replaceBackslashN rest
  | [] => []

/-- String-level wrapper for `content.replace("\\n", "\n")`. -/
def replaceEscapedNewlines (s : String) : String :=
  ⟨replaceBackslashN s.data⟩

/-! ## The embedded operations of `oweb.py` -/

/-- The module-level `HEADERS` dict: bearer token plus JSON content type. -/
def HEADERS (key : String) : List (String × String) :=
  [("Authorization", "Bearer " ++ key), ("Content-Type", "application/json")]

/-- The multipart POST that `upload_knowledge` issues for a file it managed
to open: bearer-token header only, no JSON body, the open file as the
single multipart part (the `requests` library takes the part's file name
from the open file object's `name`, the path passed to `open`). -/
def uploadRequest (env : Env) (path content : String) : Request :=
  ⟨"POST", env.base ++ "/v1/files/",
    [("Authorization", "Bearer " ++ env.key)], none, [("file", path, content)]⟩

/-- `upload_knowledge(file_path)`: opens the file (raising
`FileNotFoundError` if it cannot be read, before any request is issued),
POSTs it as multipart, and reports the response. -/
def upload_knowledge (env : Env) (path : String) : Run :=
  match env.fs path with
  | none => ⟨[], [], .exn (.fileNotFoundError path)⟩
  | some content =>
      let req := uploadRequest env path content
      let resp := env.net req
      if resp.status = 200 then
        ⟨[req], ["File uploaded successfully.", jsonDumps 0 resp.json], .ok⟩
      else
        ⟨[req], ["Failed to upload file: " ++ toString resp.status, resp.text], .ok⟩

/-- The `collection` expression of `list_knowledge`:
`doc.get("meta", {}).get("collection_name", "N/A")`. -/
def collectionOf (doc : Json) : Except PyError Json :=
  match pyGetD doc "meta" (.obj []) with
  | .error e => .error e
  | .ok meta => pyGetD meta "collection_name" (.str "N/A")

/-- The four lines `list_knowledge` prints for one document (the
`collection` expression is evaluated before any of them). -/
def knowledgeDocLines (doc : Json) : Except PyError (List String) := do
  let coll ← collectionOf doc
  let idVal ← pyGetOne doc "id"
  let fnVal ← pyGetOne doc "filename"
  .ok ["- ID: " ++ pyStr idVal,
       "  Filename: " ++ pyStr fnVal,
       "  Collection: " ++ pyStr coll,
       ""]

/-- A `for` loop printing `f x` for each element, stopping with the raised
exception if an iteration raises (lines printed by earlier iterations
remain printed). -/
def printLoop (f : Json → Except PyError (List String)) : List Json → List String × Outcome
  | [] => ([], .ok)
  | x :: rest =>
      match f x with
      | .error e => ([], .exn e)
      | .ok ls => (ls ++ (printLoop f rest).1, (printLoop f rest).2)

/-- The GET request `list_knowledge` issues. -/
def listKnowledgeRequest (env : Env) : Request :=
  ⟨"GET", env.base ++ "/v1/files/", HEADERS env.key, none, []⟩

/-- `list_knowledge()`: GETs the file listing and prints id, filename and
collection for each document; non-200 responses are printed, not raised. -/
def list_knowledge (env : Env) : Run :=
  let req := listKnowledgeRequest env
  let resp := env.net req
  if resp.status = 200 then
    match pyIter resp.json with
    | .error e => ⟨[req], ["Knowledge documents:"], .exn e⟩
    | .ok docs =>
        ⟨[req], "Knowledge documents:" :: (printLoop knowledgeDocLines docs).1,
         (printLoop knowledgeDocLines docs).2⟩
  else
    ⟨[req], ["Failed to retrieve knowledge documents: " ++ toString resp.status, resp.text], .ok⟩

/-- The line `list_models` prints for one model entry. -/
def modelLine (model : Json) : Except PyError (List String) := do
  let name ← pyGetOne model "name"
  .ok ["- " ++ pyStr name]

/-- The GET request `list_models` issues. -/
def listModelsRequest (env : Env) : Request :=
  ⟨"GET", env.base ++ "/models", HEADERS env.key, none, []⟩

/-- `list_models()`: GETs the model listing and prints each model's name
from the response's `data` field; non-200 responses are printed, not
raised. -/
def list_models (env : Env) : Run :=
  let req := listModelsRequest env
  let resp := env.net req
  if resp.status = 200 then
    match pyGetD resp.json "data" (.arr []) with
    | .error e => ⟨[req], ["Available models:"], .exn e⟩
    | .ok dataJ =>
        match pyIter dataJ with
        | .error e => ⟨[req], ["Available models:"], .exn e⟩
        | .ok models =>
            ⟨[req], "Available models:" :: (printLoop modelLine models).1,
             (printLoop modelLine models).2⟩
  else
    ⟨[req], ["Failed to retrieve models: " ++ toString resp.status, resp.text], .ok⟩

/-- Python truthiness of the optional `knowledge_ids` argument:
`None` and the empty list are falsy. -/
def knowledgeIdsTruthy : Option (List String) → Bool
  | none => false
  | some [] => false
  | some (_ :: _) => true

/-- The JSON payload `ask_question` builds: `model`, a single user message
with the question, and `knowledge_ids` added only when the argument is
truthy. -/
def askPayload (question model : String) (knowledge_ids : Option (List String)) : Json :=
  let base := [("model", Json.str model),
               ("messages", Json.arr [Json.obj [("role", Json.str "user"),
                                                ("content", Json.str question)]])]
  if knowledgeIdsTruthy knowledge_ids then
    .obj (base ++ [("knowledge_ids", Json.arr ((knowledge_ids.getD []).map Json.str))])
  else
    .obj base

/-- The POST request `ask_question` issues. -/
def askRequest (env : Env) (question model : String) (knowledge_ids : Option (List String)) : Request :=
  ⟨"POST", env.base ++ "/chat/completions", HEADERS env.key,
    some (askPayload question model knowledge_ids), []⟩

/-- The lines `ask_question` prints for one choice: the message content
with escaped newlines replaced, followed by a blank line.  A non-string
content raises `AttributeError` at the `.replace` call. -/
def choiceLines (choice : Json) : Except PyError (List String) := do
  let msg ← pyGetD choice "message" (.obj [])
  let contentJ ← pyGetD msg "content" (.str "")
  match contentJ with
  | .str s => .ok [replaceEscapedNewlines s, ""]
  | _ => .error (.attributeError "replace on non-string content")

/-- `ask_question(question, model, knowledge_ids)`: POSTs the chat payload
and prints each choice's formatted content; non-200 responses are
printed, not raised. -/
def ask_question (env : Env) (question model : String) (knowledge_ids : Option (List String)) : Run :=
  let req := askRequest env question model knowledge_ids
  let resp := env.net req
  if resp.status = 200 then
    match pyGetD resp.json "choices" (.arr []) with
    | .error e => ⟨[req], ["Response:"], .exn e⟩
    | .ok choicesJ =>
        match pyIter choicesJ with
        | .error e => ⟨[req], ["Response:"], .exn e⟩
        | .ok cs =>
            ⟨[req], "Response:" :: (printLoop choiceLines cs).1,
             (printLoop choiceLines cs).2⟩
  else
    ⟨[req], ["Failed to get response: " ++ toString resp.status, resp.text], .ok⟩

mutual

/-- The `.md` paths `load_directory` collects: `os.walk` visits the root's
own files first, then each subdirectory top-down, keeping every file whose
lowercased name ends in `.md` and joining it to the directory path. -/
def mdWalk (root : String) : Dir → List String
  | .mk files subdirs =>
      (files.filter isMd).map (fun f => pathJoin root f) ++ mdWalkSubs root subdirs

/-- `mdWalk` over a list of named subdirectories. -/
def mdWalkSubs (root : String) : List (String × Dir) → List String
  | [] => []
  | (name, d) :: rest => mdWalk (pathJoin root name) d ++ mdWalkSubs root rest

end

mutual

/-- The number of files in a tree whose names case-insensitively end in
`.md`, at any depth. -/
def mdCount : Dir → Nat
  | .mk files subdirs => (files.filter isMd).length + mdCountSubs subdirs

/-- `mdCount` over a list of named subdirectories. -/
def mdCountSubs : List (String × Dir) → Nat
  | [] => 0
  | (_, d) :: rest => mdCount d + mdCountSubs rest

end

/-- The upload loop at the end of `load_directory`: for each collected
path, print the `Uploading:` line and call `upload_knowledge`.  An
exception raised by an upload (a failed `open`) propagates; requests and
output of earlier iterations remain. -/
def uploadLoop (env : Env) : List String → Run
  | [] => ⟨[], [], .ok⟩
  | p :: rest =>
      let r := upload_knowledge env p
      match r.result with
      | .exn e => ⟨r.requests, ("Uploading: " ++ p) :: r.output, .exn e⟩
      | .ok =>
          let r2 := uploadLoop env rest
          ⟨r.requests ++ r2.requests,
           (("Uploading: " ++ p) :: r.output) ++ r2.output, r2.result⟩

/-- `load_directory(directory_path)`: reports when the path is not a
directory, collects the `.md` files of the tree, reports when there are
none, and otherwise uploads each in order. -/
def load_directory (env : Env) (path : String) : Run :=
  match env.dirs path with
  | none => ⟨[], ["Error: " ++ path ++ " is not a valid directory"], .ok⟩
  | some tree =>
      match mdWalk path tree with
      | [] => ⟨[], ["No .md files found in " ++ path], .ok⟩
      | _ :: _ =>
          let md := mdWalk path tree
          let r := uploadLoop env md
          ⟨r.requests,
           ("Found " ++ toString md.length ++ " .md files. Uploading...") :: r.output,
           r.result⟩

/-- The message of the `ValueError` raised when the API key is missing. -/
def apiKeyErrorMsg : String :=
  "API key not found. Please set the OPEN_WEBUI_API_KEY environment variable or in .env file."

/-- The module-level key check: `API_KEY = os.getenv("OPEN_WEBUI_API_KEY")`
followed by `if not API_KEY: raise ValueError(...)`.  `os.getenv` yields
`None` when the variable is absent; `not` treats `None` and the empty
string as falsy. -/
def startupApiKey : Option String → Except PyError String
  | none => .error (.valueError apiKeyErrorMsg)
  | some s => if s = "" then .error (.valueError apiKeyErrorMsg) else .ok s

/-- The five CLI subcommands after argument parsing.  For `ask`,
`--knowledge` absent parses to `None` and `--knowledge` with no values to
the empty list. -/
inductive Command where
  | upload (file : String)
  | loadDir (directory : String)
  | listKnowledge
  | listModels
  | ask (question model : String) (knowledge : Option (List String))

/-- The dispatch at the end of `main`. -/
def dispatch (env : Env) : Command → Run
  | .upload file => upload_knowledge env file
  | .loadDir d => load_directory env d
  | .listKnowledge => list_knowledge env
  | .listModels => list_models env
  | .ask q m ks => ask_question env q m ks

/-- A whole program run: the module-level API-key check happens at import,
before the command dispatch, so a missing or empty key raises before any
request can be issued. -/
def runMain (apiKeyEnv : Option String) (base : String)
    (fs : String → Option String) (dirs : String → Option Dir)
    (net : Request → Response) (cmd : Command) : Run :=
  match startupApiKey apiKeyEnv with
  | .error e => ⟨[], [], .exn e⟩
  | .ok key => dispatch ⟨key, base, fs, dirs, net⟩ cmd

/-! ## Helper lemmas -/

theorem string_data_mk (l : List Char) : (String.mk l).data = l := rfl

/-- Joining a directory path onto a name preserves the case-insensitive
`.md` suffix check. -/
theorem isMd_pathJoin (root f : String) (h : isMd f = true) :
    isMd (pathJoin root f) = true := by
  simp only [isMd, pyEndsWith, pyLower, pathJoin, String.data_append,
    string_data_mk, List.map_append] at h ⊢
  rw [List.isSuffixOf_iff_suffix] at h ⊢
  exact h.trans (List.suffix_append _ _)

mutual

/-- The number of paths `load_directory` collects equals the number of
`.md` files in the tree. -/
theorem mdWalk_length : ∀ (root : String) (d : Dir),
    (mdWalk root d).length = mdCount d
  | root, .mk files subdirs => by
    simp only [mdWalk, mdCount, List.length_append, List.length_map]
    rw [mdWalkSubs_length root subdirs]

theorem mdWalkSubs_length : ∀ (root : String) (l : List (String × Dir)),
    (mdWalkSubs root l).length = mdCountSubs l
  | _, [] => rfl
  | root, (name, d) :: rest => by
    simp only [mdWalkSubs, mdCountSubs, List.length_append]
    rw [mdWalk_length (pathJoin root name) d, mdWalkSubs_length root rest]

end

mutual

/-- Every path `load_directory` collects passes the case-insensitive `.md`
check. -/
theorem mdWalk_isMd : ∀ (root : String) (d : Dir) (p : String),
    p ∈ mdWalk root d → isMd p = true
  | root, .mk files subdirs, p => by
    simp only [mdWalk, List.mem_append, List.mem_map, List.mem_filter]
    rintro (⟨f, ⟨_, hf⟩, rfl⟩ | hsub)
    · exact isMd_pathJoin root f hf
    · exact mdWalkSubs_isMd root subdirs p hsub

theorem mdWalkSubs_isMd : ∀ (root : String) (l : List (String × Dir)) (p : String),
    p ∈ mdWalkSubs root l → isMd p = true
  | _, [], p => by simp [mdWalkSubs]
  | root, (name, d) :: rest, p => by
    simp only [mdWalkSubs, List.mem_append]
    rintro (h | h)
    · exact mdWalk_isMd (pathJoin root name) d p h
    · exact mdWalkSubs_isMd root rest p h

end

/-- An upload of a readable file issues exactly its one request and
returns normally, whatever the response status. -/
theorem upload_knowledge_readable (env : Env) (p c : String) (h : env.fs p = some c) :
    (upload_knowledge env p).requests = [uploadRequest env p c] ∧
    (upload_knowledge env p).result = .ok := by
  unfold upload_knowledge
  rw [h]
  dsimp only
  split <;> exact ⟨rfl, rfl⟩

/-- An upload of an unreadable file raises before issuing any request. -/
theorem upload_knowledge_unreadable (env : Env) (p : String) (h : env.fs p = none) :
    upload_knowledge env p = ⟨[], [], .exn (.fileNotFoundError p)⟩ := by
  unfold upload_knowledge
  rw [h]

/-- When every file of the list is readable, the upload loop issues one
request per file, in order, and returns normally. -/
theorem uploadLoop_readable (env : Env) : ∀ (l : List String),
    (∀ p ∈ l, (env.fs p).isSome) →
    (uploadLoop env l).requests =
      l.map (fun p => uploadRequest env p ((env.fs p).getD "")) ∧
    (uploadLoop env l).result = .ok
  | [], _ => ⟨rfl, rfl⟩
  | p :: rest, h => by
    obtain ⟨c, hc⟩ := Option.isSome_iff_exists.mp (h p (List.mem_cons_self p rest))
    have hup := upload_knowledge_readable env p c hc
    have ih := uploadLoop_readable env rest (fun q hq => h q (List.mem_cons_of_mem p hq))
    unfold uploadLoop
    dsimp only
    rw [hup.2]
    dsimp only
    refine ⟨?_, ih.2⟩
    rw [hup.1, ih.1]
    simp [hc]

/-- When the files before `p` are readable and `p` is not, the upload loop
issues exactly the requests for the files before `p` and raises `p`'s
file-open error; the files after `p` are never uploaded. -/
theorem uploadLoop_abort (env : Env) (p : String) (hp : env.fs p = none) :
    ∀ (l1 l2 : List String), (∀ q ∈ l1, (env.fs q).isSome) →
    (uploadLoop env (l1 ++ p :: l2)).requests =
      l1.map (fun q => uploadRequest env q ((env.fs q).getD "")) ∧
    (uploadLoop env (l1 ++ p :: l2)).result = .exn (.fileNotFoundError p)
  | [], l2, _ => by
    rw [List.nil_append]
    unfold uploadLoop
    dsimp only
    rw [upload_knowledge_unreadable env p hp]
    exact ⟨rfl, rfl⟩
  | q :: l1, l2, h => by
    obtain ⟨c, hc⟩ := Option.isSome_iff_exists.mp (h q (List.mem_cons_self q l1))
    have hup := upload_knowledge_readable env q c hc
    have ih := uploadLoop_abort env p hp l1 l2 (fun r hr => h r (List.mem_cons_of_mem q hr))
    rw [List.cons_append]
    unfold uploadLoop
    dsimp only
    rw [hup.2]
    dsimp only
    refine ⟨?_, ih.2⟩
    rw [hup.1, ih.1]
    simp [hc]

/-- On an existing directory, `load_directory`'s requests and outcome are
those of the upload loop over the collected `.md` paths. -/
theorem load_directory_some (env : Env) (path : String) (tree : Dir)
    (hdir : env.dirs path = some tree) :
    (load_directory env path).requests = (uploadLoop env (mdWalk path tree)).requests ∧
    (load_directory env path).result = (uploadLoop env (mdWalk path tree)).result := by
  unfold load_directory
  rw [hdir]
  dsimp only
  split
  next heq => rw [heq]; exact ⟨rfl, rfl⟩
  next => exact ⟨rfl, rfl⟩

/-- Whatever the response, `ask_question` issues exactly its one POST. -/
theorem ask_question_requests (env : Env) (q m : String) (ks : Option (List String)) :
    (ask_question env q m ks).requests = [askRequest env q m ks] := by
  unfold ask_question
  dsimp only
  split
  · split
    · rfl
    · split <;> rfl
  · rfl

/-! ## Concrete test fixtures used by witnesses and counterexamples -/

/-- A network returning a fixed failing response. -/
def failNet : Request → Response :=
  fun _ => ⟨404, "not found", Json.null⟩

/-- An environment where every file is readable, nothing is a directory,
and every request fails with 404. -/
def failEnv : Env :=
  ⟨"testkey", "http://localhost:3000/api", fun _ => some "contents", fun _ => none, failNet⟩

/-- A sample directory tree: two `.md` files (one with upper-case
extension) and one `.txt` file at the root, plus a subdirectory holding
one further `.md` file. -/
def sampleTree : Dir :=
  .mk ["a.md", "notes.txt", "B.MD"] [("sub", .mk ["c.md"] [])]

/-- An environment whose only directory is `docs`, holding `sampleTree`,
with every file readable. -/
def treeEnv : Env :=
  ⟨"testkey", "http://localhost:3000/api", fun _ => some "contents",
   fun p => if p = "docs" then some sampleTree else none, failNet⟩

/-! ## The claims -/

/-- C1 counterexample: the claim says an explicitly passed empty
`knowledge_ids` list is sent as an empty list representation, but
`ask_question` guards the key with Python truthiness (`if knowledge_ids:`),
so the request body built for the empty list omits the key entirely. -/
theorem c1_empty_list_counterexample :
    (askRequest failEnv "q" "mdl" (some [])).jsonBody =
      some (askPayload "q" "mdl" (some [])) ∧
    jsonGet (askPayload "q" "mdl" (some [])) "knowledge_ids" = none ∧
    ¬ jsonGet (askPayload "q" "mdl" (some [])) "knowledge_ids" = some (.arr []) :=
  ⟨rfl, rfl, fun h => nomatch h⟩

/-- C1 (amended): every `ask` request body maps `model` to the model and
`messages` to a single user message holding the question; `knowledge_ids`
is present (with the supplied list verbatim) exactly when the supplied
list is non-empty, and is omitted when the caller passed nothing or an
empty list. -/
theorem c1_ask_body (env : Env) (q m : String) (ks : Option (List String)) :
    (ask_question env q m ks).requests = [askRequest env q m ks] ∧
    (askRequest env q m ks).jsonBody = some (askPayload q m ks) ∧
    jsonGet (askPayload q m ks) "model" = some (.str m) ∧
    jsonGet (askPayload q m ks) "messages" =
      some (.arr [.obj [("role", .str "user"), ("content", .str q)]]) ∧
    jsonGet (askPayload q m ks) "knowledge_ids" =
      (match ks with
       | some (x :: xs) => some (.arr ((x :: xs).map Json.str))
       | _ => none) := by
  refine ⟨ask_question_requests env q m ks, rfl, ?_, ?_, ?_⟩ <;>
    match ks with
    | none => rfl
    | some [] => rfl
    | some (x :: xs) => rfl

/-- C3: a missing or empty `OPEN_WEBUI_API_KEY` makes startup raise the
module-level `ValueError` before dispatch, so no request is issued and no
output is printed, whatever the command. -/
theorem c3_missing_api_key (k : Option String) (base : String)
    (fs : String → Option String) (dirs : String → Option Dir)
    (net : Request → Response) (cmd : Command)
    (h : k = none ∨ k = some "") :
    runMain k base fs dirs net cmd = ⟨[], [], .exn (.valueError apiKeyErrorMsg)⟩ ∧
    (runMain k base fs dirs net cmd).requests = [] := by
  rcases h with rfl | rfl <;> exact ⟨rfl, rfl⟩

/-- C3 witness: with the variable absent and the `list-knowledge` command,
startup fails with the configuration error and no request is issued. -/
theorem c3_missing_api_key_witness :
    (none = (none : Option String) ∨ none = some "") ∧
    runMain none "http://localhost:3000/api" failEnv.fs failEnv.dirs failNet .listKnowledge =
      ⟨[], [], .exn (.valueError apiKeyErrorMsg)⟩ :=
  ⟨Or.inl rfl,
   (c3_missing_api_key none "http://localhost:3000/api" failEnv.fs failEnv.dirs failNet
     .listKnowledge (Or.inl rfl)).1⟩

/-- A network returning a 200 chat response with one choice whose content
holds a literal backslash-n sequence. -/
def chatEnv : Env :=
  ⟨"testkey", "http://localhost:3000/api", fun _ => some "contents", fun _ => none,
   fun _ => ⟨200, "",
     .obj [("choices", .arr [.obj [("message", .obj [("content", .str "line1\\nline2")])]])]⟩⟩

/-- A network returning a 200 knowledge listing with one entry that has no
`meta` key. -/
def listEnv : Env :=
  ⟨"testkey", "http://localhost:3000/api", fun _ => some "contents", fun _ => none,
   fun _ => ⟨200, "", .arr [.obj [("id", .str "doc-1"), ("filename", .str "a.md")]]⟩⟩

/-- A network returning a 200 knowledge listing with one entry whose
`meta` key is present but maps to `null`. -/
def nullMetaEnv : Env :=
  ⟨"testkey", "http://localhost:3000/api", fun _ => some "contents", fun _ => none,
   fun _ => ⟨200, "", .arr [.obj [("meta", Json.null)]]⟩⟩

/-- An environment whose only directory is `docs`, holding `sampleTree`,
where the first collected file cannot be opened. -/
def abortEnv : Env :=
  ⟨"testkey", "http://localhost:3000/api",
   fun p => if p = "docs/a.md" then none else some "contents",
   fun p => if p = "docs" then some sampleTree else none, failNet⟩

/-- C2: on a non-200 response, each of the four operations prints the
status code and the raw body text and returns normally, raising nothing. -/
theorem c2_non200_reported_not_raised (env : Env) (path c q m : String)
    (ks : Option (List String))
    (hfile : env.fs path = some c)
    (hu : (env.net (uploadRequest env path c)).status ≠ 200)
    (hk : (env.net (listKnowledgeRequest env)).status ≠ 200)
    (hm : (env.net (listModelsRequest env)).status ≠ 200)
    (ha : (env.net (askRequest env q m ks)).status ≠ 200) :
    upload_knowledge env path =
      ⟨[uploadRequest env path c],
       ["Failed to upload file: " ++ toString (env.net (uploadRequest env path c)).status,
        (env.net (uploadRequest env path c)).text], .ok⟩ ∧
    list_knowledge env =
      ⟨[listKnowledgeRequest env],
       ["Failed to retrieve knowledge documents: " ++
          toString (env.net (listKnowledgeRequest env)).status,
        (env.net (listKnowledgeRequest env)).text], .ok⟩ ∧
    list_models env =
      ⟨[listModelsRequest env],
       ["Failed to retrieve models: " ++ toString (env.net (listModelsRequest env)).status,
        (env.net (listModelsRequest env)).text], .ok⟩ ∧
    ask_question env q m ks =
      ⟨[askRequest env q m ks],
       ["Failed to get response: " ++ toString (env.net (askRequest env q m ks)).status,
        (env.net (askRequest env q m ks)).text], .ok⟩ := by
  refine ⟨?_, ?_, ?_, ?_⟩
  · unfold upload_knowledge
    rw [hfile]
    dsimp only
    rw [if_neg hu]
  · unfold list_knowledge
    dsimp only
    rw [if_neg hk]
  · unfold list_models
    dsimp only
    rw [if_neg hm]
  · unfold ask_question
    dsimp only
    rw [if_neg ha]

/-- C2 witness: against a network that answers every request with a 404
and body `not found`, each operation prints the two lines and returns
normally. -/
theorem c2_non200_witness :
    failEnv.fs "file.md" = some "contents" ∧
    (failEnv.net (uploadRequest failEnv "file.md" "contents")).status ≠ 200 ∧
    upload_knowledge failEnv "file.md" =
      ⟨[uploadRequest failEnv "file.md" "contents"],
       ["Failed to upload file: 404", "not found"], .ok⟩ ∧
    list_knowledge failEnv =
      ⟨[listKnowledgeRequest failEnv],
       ["Failed to retrieve knowledge documents: 404", "not found"], .ok⟩ ∧
    list_models failEnv =
      ⟨[listModelsRequest failEnv],
       ["Failed to retrieve models: 404", "not found"], .ok⟩ ∧
    ask_question failEnv "q" "mdl" none =
      ⟨[askRequest failEnv "q" "mdl" none],
       ["Failed to get response: 404", "not found"], .ok⟩ := by
  have h := c2_non200_reported_not_raised failEnv "file.md" "contents" "q" "mdl" none
    rfl (by decide) (by decide) (by decide) (by decide)
  exact ⟨rfl, by decide, h.1, h.2.1, h.2.2.1, h.2.2.2⟩

/-- C4: on an existing directory whose collected files are all readable,
`load_directory` issues exactly one upload request per `.md` file of the
tree (case-insensitively, at any depth), and every uploaded file passes
the `.md` check — files with other extensions are never uploaded. -/
theorem c4_load_directory_md_files (env : Env) (path : String) (tree : Dir)
    (hdir : env.dirs path = some tree)
    (hread : ∀ p ∈ mdWalk path tree, (env.fs p).isSome) :
    (load_directory env path).requests =
      (mdWalk path tree).map (fun p => uploadRequest env p ((env.fs p).getD "")) ∧
    (load_directory env path).requests.length = mdCount tree ∧
    ∀ req ∈ (load_directory env path).requests, ∀ part ∈ req.files,
      isMd part.2.1 = true := by
  have hld := load_directory_some env path tree hdir
  have hul := uploadLoop_readable env (mdWalk path tree) hread
  have hreq : (load_directory env path).requests =
      (mdWalk path tree).map (fun p => uploadRequest env p ((env.fs p).getD "")) := by
    rw [hld.1, hul.1]
  refine ⟨hreq, ?_, ?_⟩
  · rw [hreq, List.length_map, mdWalk_length]
  · intro req hmem part hpart
    rw [hreq] at hmem
    obtain ⟨p, hp, rfl⟩ := List.mem_map.mp hmem
    simp only [uploadRequest, List.mem_singleton] at hpart
    subst hpart
    exact mdWalk_isMd path tree p hp

/-- C4 witness: `sampleTree` holds three `.md` files (one via upper case,
one nested) and one `.txt` file; `load_directory` issues three requests. -/
theorem c4_load_directory_witness :
    treeEnv.dirs "docs" = some sampleTree ∧
    (∀ p ∈ mdWalk "docs" sampleTree, (treeEnv.fs p).isSome) ∧
    mdCount sampleTree = 3 ∧
    (load_directory treeEnv "docs").requests.length = 3 :=
  ⟨rfl, fun _ _ => rfl, rfl,
   (c4_load_directory_md_files treeEnv "docs" sampleTree rfl (fun _ _ => rfl)).2.1⟩

/-- C5: on a 200 chat response, `ask_question` prints each choice's
content with every literal backslash-`n` sequence replaced by a real
newline; in particular `line1\\nline2` is printed with a line break. -/
theorem c5_ask_unescapes_newlines (env : Env) (q m s : String) (ks : Option (List String))
    (h200 : (env.net (askRequest env q m ks)).status = 200)
    (hbody : (env.net (askRequest env q m ks)).json =
      .obj [("choices", .arr [.obj [("message", .obj [("content", .str s)])]])]) :
    ask_question env q m ks =
      ⟨[askRequest env q m ks], ["Response:", replaceEscapedNewlines s, ""], .ok⟩ ∧
    replaceEscapedNewlines "line1\\nline2" = "line1\nline2" := by
  refine ⟨?_, rfl⟩
  unfold ask_question
  dsimp only
  rw [if_pos h200, hbody]
  rfl

/-- C5 witness: a concrete 200 response whose single choice contains the
literal two-character sequence; the printed line holds a real newline. -/
theorem c5_ask_unescapes_witness :
    (chatEnv.net (askRequest chatEnv "q" "mdl" none)).status = 200 ∧
    ask_question chatEnv "q" "mdl" none =
      ⟨[askRequest chatEnv "q" "mdl" none], ["Response:", "line1\nline2", ""], .ok⟩ :=
  ⟨rfl, (c5_ask_unescapes_newlines chatEnv "q" "mdl" "line1\\nline2" none rfl rfl).1⟩

/-- C6: on a 200 listing response, `list_knowledge` prints identifier,
filename and collection for each entry, and the collection falls back to
`N/A` whenever the `meta.collection_name` chain is absent — whether the
`meta` key is missing or is a mapping lacking `collection_name`. -/
theorem c6_list_knowledge_na (env : Env) (i f : String)
    (h200 : (env.net (listKnowledgeRequest env)).status = 200)
    (hbody : (env.net (listKnowledgeRequest env)).json =
      .arr [.obj [("id", .str i), ("filename", .str f)]]) :
    list_knowledge env =
      ⟨[listKnowledgeRequest env],
       ["Knowledge documents:", "- ID: " ++ i, "  Filename: " ++ f,
        "  Collection: N/A", ""], .ok⟩ ∧
    (∀ kvs : List (String × Json), Json.lookupKey kvs "meta" = none →
      collectionOf (.obj kvs) = .ok (.str "N/A")) ∧
    (∀ (kvs mkvs : List (String × Json)),
      Json.lookupKey kvs "meta" = some (.obj mkvs) →
      Json.lookupKey mkvs "collection_name" = none →
      collectionOf (.obj kvs) = .ok (.str "N/A")) := by
  refine ⟨?_, ?_, ?_⟩
  · unfold list_knowledge
    dsimp only
    rw [if_pos h200, hbody]
    rfl
  · intro kvs h
    simp [collectionOf, pyGetD, h, Json.lookupKey]
  · intro kvs mkvs h1 h2
    simp [collectionOf, pyGetD, h1, h2]

/-- C6 witness: a 200 listing with one entry lacking `meta` prints its id
and filename and the `N/A` collection placeholder. -/
theorem c6_list_knowledge_witness :
    (listEnv.net (listKnowledgeRequest listEnv)).status = 200 ∧
    list_knowledge listEnv =
      ⟨[listKnowledgeRequest listEnv],
       ["Knowledge documents:", "- ID: doc-1", "  Filename: a.md",
        "  Collection: N/A", ""], .ok⟩ :=
  ⟨rfl, (c6_list_knowledge_na listEnv "doc-1" "a.md" rfl rfl).1⟩

/-- C7: uploading a readable file issues exactly one request: a multipart
POST to the file-upload endpoint whose only header is the bearer token —
in particular no JSON content-type header and no JSON body. -/
theorem c7_upload_multipart_headers (env : Env) (path c : String)
    (h : env.fs path = some c) :
    (upload_knowledge env path).requests = [uploadRequest env path c] ∧
    (uploadRequest env path c).method = "POST" ∧
    (uploadRequest env path c).url = env.base ++ "/v1/files/" ∧
    (uploadRequest env path c).files = [("file", path, c)] ∧
    (uploadRequest env path c).jsonBody = none ∧
    (uploadRequest env path c).headers = [("Authorization", "Bearer " ++ env.key)] ∧
    ∀ v, ("Content-Type", v) ∉ (uploadRequest env path c).headers := by
  refine ⟨(upload_knowledge_readable env path c h).1, rfl, rfl, rfl, rfl, rfl, ?_⟩
  intro v hv
  simp only [uploadRequest, List.mem_singleton, Prod.mk.injEq] at hv
  exact absurd hv.1 (by decide)

/-- C7 witness: the concrete upload of a readable file issues its one
bearer-only multipart POST. -/
theorem c7_upload_multipart_witness :
    failEnv.fs "file.md" = some "contents" ∧
    (upload_knowledge failEnv "file.md").requests =
      [uploadRequest failEnv "file.md" "contents"] ∧
    (uploadRequest failEnv "file.md" "contents").headers =
      [("Authorization", "Bearer testkey")] :=
  ⟨rfl, (c7_upload_multipart_headers failEnv "file.md" "contents" rfl).1,
   (c7_upload_multipart_headers failEnv "file.md" "contents" rfl).2.2.2.2.2.1⟩

/-- C8: when some discovered file's upload receives a non-200 response,
the loop still issues the upload request of every discovered file and
`load_directory` returns normally. -/
theorem c8_upload_failure_continues (env : Env) (path p : String) (tree : Dir)
    (hdir : env.dirs path = some tree)
    (hread : ∀ q ∈ mdWalk path tree, (env.fs q).isSome)
    (_hp : p ∈ mdWalk path tree)
    (_hfail : (env.net (uploadRequest env p ((env.fs p).getD ""))).status ≠ 200) :
    (load_directory env path).requests =
      (mdWalk path tree).map (fun q => uploadRequest env q ((env.fs q).getD "")) ∧
    (load_directory env path).result = .ok := by
  have hld := load_directory_some env path tree hdir
  have hul := uploadLoop_readable env (mdWalk path tree) hread
  exact ⟨by rw [hld.1, hul.1], by rw [hld.2, hul.2]⟩

/-- C8 witness: every upload of `sampleTree`'s three files fails with 404,
yet all three requests are issued and the operation returns normally. -/
theorem c8_upload_failure_witness :
    "docs/a.md" ∈ mdWalk "docs" sampleTree ∧
    (treeEnv.net (uploadRequest treeEnv "docs/a.md" ((treeEnv.fs "docs/a.md").getD ""))).status ≠ 200 ∧
    (load_directory treeEnv "docs").requests.length = 3 ∧
    (load_directory treeEnv "docs").result = .ok := by
  have h := c8_upload_failure_continues treeEnv "docs" "docs/a.md" sampleTree rfl
    (fun _ _ => rfl) (by decide) (by decide)
  exact ⟨by decide, by decide, by rw [h.1]; rfl, h.2⟩

/-- C9: the `N/A` fallback of `list_knowledge` applies only when `meta` is
absent or is a mapping lacking `collection_name`; an entry whose `meta`
key maps to `null` (or any non-mapping) makes the collection lookup raise
`AttributeError`, and the run ends in that exception without printing the
placeholder. -/
theorem c9_meta_non_mapping_raises (env : Env) (v : Json) (kvs : List (String × Json))
    (hv : ∀ fields, v ≠ Json.obj fields)
    (hmeta : Json.lookupKey kvs "meta" = some v)
    (h200 : (env.net (listKnowledgeRequest env)).status = 200)
    (hbody : (env.net (listKnowledgeRequest env)).json =
      .arr [.obj [("meta", Json.null)]]) :
    collectionOf (.obj kvs) =
      .error (.attributeError "get on non-dict value for key collection_name") ∧
    (list_knowledge env).result =
      .exn (.attributeError "get on non-dict value for key collection_name") ∧
    "  Collection: N/A" ∉ (list_knowledge env).output := by
  refine ⟨?_, ?_, ?_⟩
  · unfold collectionOf
    rw [show pyGetD (.obj kvs) "meta" (.obj []) = .ok v by simp [pyGetD, hmeta]]
    cases v with
    | obj fields => exact absurd rfl (hv fields)
    | null => rfl
    | bool b => rfl
    | num n => rfl
    | str s => rfl
    | arr xs => rfl
  · unfold list_knowledge
    dsimp only
    rw [if_pos h200, hbody]
    rfl
  · unfold list_knowledge
    dsimp only
    rw [if_pos h200, hbody]
    intro hmem
    have hmem2 : "  Collection: N/A" ∈ ["Knowledge documents:"] := hmem
    rw [List.mem_singleton] at hmem2
    exact absurd hmem2 (by decide)

/-- C9 witness: the concrete 200 listing whose single entry maps `meta`
to `null` raises and never prints the placeholder line. -/
theorem c9_meta_non_mapping_witness :
    Json.lookupKey [("meta", Json.null)] "meta" = some Json.null ∧
    (list_knowledge nullMetaEnv).result =
      .exn (.attributeError "get on non-dict value for key collection_name") ∧
    "  Collection: N/A" ∉ (list_knowledge nullMetaEnv).output := by
  have h := c9_meta_non_mapping_raises nullMetaEnv Json.null [("meta", Json.null)]
    (fun fields hf => Json.noConfusion hf) rfl rfl rfl
  exact ⟨rfl, h.2.1, h.2.2⟩

/-- C10: when a discovered file cannot be opened, its `FileNotFoundError`
propagates out of `upload_knowledge` through `load_directory`'s loop, so
the run ends in that exception and only the files before it were
uploaded — the remaining discovered files are left un-uploaded. -/
theorem c10_open_error_aborts (env : Env) (path p : String) (tree : Dir)
    (l1 l2 : List String)
    (hdir : env.dirs path = some tree)
    (hsplit : mdWalk path tree = l1 ++ p :: l2)
    (hl1 : ∀ q ∈ l1, (env.fs q).isSome)
    (hp : env.fs p = none) :
    (load_directory env path).result = .exn (.fileNotFoundError p) ∧
    (load_directory env path).requests =
      l1.map (fun q => uploadRequest env q ((env.fs q).getD "")) := by
  have hld := load_directory_some env path tree hdir
  have hab := uploadLoop_abort env p hp l1 l2 hl1
  rw [hsplit] at hld
  exact ⟨by rw [hld.2, hab.2], by rw [hld.1, hab.1]⟩

/-- C10 witness: in `abortEnv` the first collected file cannot be opened;
the run raises its `FileNotFoundError` and issues no request at all, so
the two remaining `.md` files are left un-uploaded. -/
theorem c10_open_error_witness :
    abortEnv.fs "docs/a.md" = none ∧
    mdWalk "docs" sampleTree = [] ++ "docs/a.md" :: ["docs/B.MD", "docs/sub/c.md"] ∧
    (load_directory abortEnv "docs").result =
      .exn (.fileNotFoundError "docs/a.md") ∧
    (load_directory abortEnv "docs").requests = [] := by
  have h := c10_open_error_aborts abortEnv "docs" "docs/a.md" sampleTree
    [] ["docs/B.MD", "docs/sub/c.md"] rfl (by decide)
    (fun q hq => absurd hq (List.not_mem_nil q)) rfl
  exact ⟨rfl, by decide, h.1, h.2⟩

end Oweb
